import Mathlib

/-!
Verification of the document-protocol registry (`protocolo1.py`).

The Python source is shallowly embedded: each SQLite table becomes a list of
records inside a `DB` state, every CRUD method becomes a pure state-passing
function, `CURRENT_TIMESTAMP` becomes an explicit `now : Nat` (seconds since
the epoch, calendar date `now / 86400`), and the `json` module's
`dumps`/`loads` pair (used for the audit-log `detalhes` payload) is embedded
as an executable encoder and parser over an inductive JSON value type.
`hashlib.sha256` is external to the repository and enters only through
equality tests, so it is a function parameter of the operations that use it.
-/

/-- JSON values as produced and consumed by the `detalhes` payloads of the
audit log: the source passes dictionaries whose values are strings, numbers,
booleans, `None` and nested dictionaries.  Floats do not occur in the source
payloads and are outside this embedding. -/
inductive JVal : Type where
  | null : JVal
  | bool (b : Bool) : JVal
  | int (n : Int) : JVal
  | str (s : String) : JVal
  | arr (xs : List JVal) : JVal
  | obj (kvs : List (String × JVal)) : JVal

/-- Decimal digit character, as produced by Python's `str` on digits 0-9. -/
def digitChar : Nat → Char
  | 0 => '0'
  | 1 => '1'
  | 2 => '2'
  | 3 => '3'
  | 4 => '4'
  | 5 => '5'
  | 6 => '6'
  | 7 => '7'
  | 8 => '8'
  | 9 => '9'
  | _ => '*'

/-- Lowercase hex digit, as produced by Python's `'%04x'` format used by
`json.dumps` for control-character escapes. -/
def hexDigitChar : Nat → Char
  | 0 => '0'
  | 1 => '1'
  | 2 => '2'
  | 3 => '3'
  | 4 => '4'
  | 5 => '5'
  | 6 => '6'
  | 7 => '7'
  | 8 => '8'
  | 9 => '9'
  | 10 => 'a'
  | 11 => 'b'
  | 12 => 'c'
  | 13 => 'd'
  | 14 => 'e'
  | 15 => 'f'
  | _ => '*'

/-- Digits of a natural number, most significant first; the fuel argument
only drives structural recursion and is irrelevant once it exceeds the
number. -/
def natCharsAux : Nat → Nat → List Char
  | 0, _ => []
  | fuel + 1, m =>
      if m < 10 then [digitChar m]
      else natCharsAux fuel (m / 10) ++ [digitChar (m % 10)]

/-- Decimal digits of a natural number, most significant first
(Python's `str(n)` for `n ≥ 0`). -/
def natChars (m : Nat) : List Char := natCharsAux (m + 1) m

/-- Escape of one character inside a JSON string, following
`json.dumps(..., ensure_ascii=False)`: backslash, double quote and the
control characters below 0x20 are escaped, everything else is literal. -/
def escapeChar (c : Char) : List Char :=
  if c = '"' then ['\\', '"']
  else if c = '\\' then ['\\', '\\']
  else if c = '\x08' then ['\\', 'b']
  else if c = '\x09' then ['\\', 't']
  else if c = '\x0a' then ['\\', 'n']
  else if c = '\x0c' then ['\\', 'f']
  else if c = '\x0d' then ['\\', 'r']
  else if c.toNat < 32 then
    ['\\', 'u', '0', '0', hexDigitChar (c.toNat / 16), hexDigitChar (c.toNat % 16)]
  else [c]

/-- Characters of a JSON string literal, quotes included. -/
def encString (s : String) : List Char :=
  '"' :: (s.data.map escapeChar).flatten ++ ['"']

/-- Characters of a JSON integer (Python's `repr` of an `int`). -/
def encInt (n : Int) : List Char :=
  if n < 0 then '-' :: natChars n.natAbs else natChars n.natAbs

mutual

/-- Characters of `json.dumps(v, ensure_ascii=False)` (default separators
`', '` and `': '`). -/
def encV : JVal → List Char
  | .null => ['n', 'u', 'l', 'l']
  | .int n => encInt n
  | .bool true => ['t', 'r', 'u', 'e']
  | .str s => encString s
  | .bool false => ['f', 'a', 'l', 's', 'e']
  | .arr xs => '[' :: encL xs ++ [']']
  | .obj kvs => '\x7b' :: encM kvs ++ ['\x7d']

/-- Comma-separated encodings of array elements. -/
def encL : List JVal → List Char
  | [] => []
  | [x] => encV x
  | x :: xs => encV x ++ ',' :: ' ' :: encL xs

/-- Comma-separated encodings of object members, `key: value`. -/
def encM : List (String × JVal) → List Char
  | [] => []
  | [(k, v)] => encString k ++ ':' :: ' ' :: encV v
  | (k, v) :: ms => encString k ++ ':' :: ' ' :: encV v ++ ',' :: ' ' :: encM ms

end

/-- `json.dumps(v, ensure_ascii=False)` as used by `registrar_log`. -/
def dumps (v : JVal) : String := String.mk (encV v)

/-- JSON whitespace. -/
def isWsChar (c : Char) : Bool :=
  c = ' ' || c = '\x09' || c = '\x0a' || c = '\x0d'

/-- Drop leading JSON whitespace. -/
def skipWs : List Char → List Char
  | [] => []
  | c :: cs => if isWsChar c then skipWs cs else c :: cs

/-- Value of one hex digit, both cases, as accepted by `json.loads`. -/
def hexVal (c : Char) : Option Nat :=
  if '0' ≤ c ∧ c ≤ '9' then some (c.toNat - 48)
  else if 'a' ≤ c ∧ c ≤ 'f' then some (c.toNat - 87)
  else if 'A' ≤ c ∧ c ≤ 'F' then some (c.toNat - 55)
  else none

/-- Body of a JSON string after the opening quote: returns the decoded
characters and the input remaining after the closing quote.  Unescaped
control characters are rejected (`json.loads` default `strict=True`). -/
def parseStringBody : List Char → Option (List Char × List Char)
  | [] => none
  | c :: rest =>
      if c = '"' then some ([], rest)
      else if c = '\\' then
        match rest with
        | [] => none
        | d :: r =>
            if d = '"' then (parseStringBody r).map (fun p => ('"' :: p.1, p.2))
            else if d = '\\' then (parseStringBody r).map (fun p => ('\\' :: p.1, p.2))
            else if d = '/' then (parseStringBody r).map (fun p => ('/' :: p.1, p.2))
            else if d = 'b' then (parseStringBody r).map (fun p => ('\x08' :: p.1, p.2))
            else if d = 't' then (parseStringBody r).map (fun p => ('\x09' :: p.1, p.2))
            else if d = 'n' then (parseStringBody r).map (fun p => ('\x0a' :: p.1, p.2))
            else if d = 'f' then (parseStringBody r).map (fun p => ('\x0c' :: p.1, p.2))
            else if d = 'r' then (parseStringBody r).map (fun p => ('\x0d' :: p.1, p.2))
            else if d = 'u' then
              match r with
              | h1 :: h2 :: h3 :: h4 :: r2 =>
                  match hexVal h1, hexVal h2, hexVal h3, hexVal h4 with
                  | some a, some b, some cc, some dd =>
                      (parseStringBody r2).map
                        (fun p => (Char.ofNat (((a * 16 + b) * 16 + cc) * 16 + dd) :: p.1, p.2))
                  | _, _, _, _ => none
              | _ => none
            else none
      else if c.toNat < 32 then none
      else (parseStringBody rest).map (fun p => (c :: p.1, p.2))

/-- Longest digit prefix and the remaining input. -/
def takeDigits : List Char → List Char × List Char
  | [] => ([], [])
  | c :: cs =>
      if c.isDigit then
        let p := takeDigits cs
        (c :: p.1, p.2)
      else ([], c :: cs)

/-- Numeric value of a digit list, most significant first. -/
def digitsVal (ds : List Char) : Nat :=
  ds.foldl (fun a c => a * 10 + (c.toNat - 48)) 0

/-- Parse a nonempty run of digits into a natural number. -/
def parseNatPart (cs : List Char) : Option (Nat × List Char) :=
  let p := takeDigits cs
  if p.1 = [] then none else some (digitsVal p.1, p.2)

mutual

/-- Fuel-indexed JSON value parser (the embedding of `json.loads`, restricted
to the value forms the encoder produces plus whitespace tolerance).  The fuel
only drives structural recursion; `loads` supplies a value large enough for
any input. -/
def parseVal : Nat → List Char → Option (JVal × List Char)
  | 0, _ => none
  | fuel + 1, cs => parseValHead fuel (skipWs cs)

/-- Dispatch on the first significant character of a value. -/
def parseValHead : Nat → List Char → Option (JVal × List Char)
  | 0, _ => none
  | _ + 1, [] => none
  | fuel + 1, c :: rest =>
      if c = 'n' then
        match rest with
        | 'u' :: 'l' :: 'l' :: r => some (.null, r)
        | _ => none
      else if c = 't' then
        match rest with
        | 'r' :: 'u' :: 'e' :: r => some (.bool true, r)
        | _ => none
      else if c = 'f' then
        match rest with
        | 'a' :: 'l' :: 's' :: 'e' :: r => some (.bool false, r)
        | _ => none
      else if c = '"' then
        (parseStringBody rest).map (fun p => (.str (String.mk p.1), p.2))
      else if c = '[' then parseArrBody fuel (skipWs rest)
      else if c = '\x7b' then parseObjBody fuel (skipWs rest)
      else if c = '-' then
        (parseNatPart rest).map (fun p => (.int (-(p.1 : Int)), p.2))
      else if c.isDigit then
        (parseNatPart (c :: rest)).map (fun p => (.int (p.1 : Int), p.2))
      else none

/-- After `[`: empty array or first element. -/
def parseArrBody : Nat → List Char → Option (JVal × List Char)
  | 0, _ => none
  | _ + 1, [] => none
  | fuel + 1, d :: r1 =>
      if d = ']' then some (.arr [], r1)
      else (parseElems fuel (d :: r1)).map (fun p => (.arr p.1, p.2))

/-- After the opening brace: empty object or first member. -/
def parseObjBody : Nat → List Char → Option (JVal × List Char)
  | 0, _ => none
  | _ + 1, [] => none
  | fuel + 1, d :: r1 =>
      if d = '\x7d' then some (.obj [], r1)
      else (parseMembers fuel (d :: r1)).map (fun p => (.obj p.1, p.2))

/-- One or more comma-separated array elements followed by `]`. -/
def parseElems : Nat → List Char → Option (List JVal × List Char)
  | 0, _ => none
  | fuel + 1, cs =>
      match parseVal fuel cs with
      | some (v, rest) => parseElemsTail fuel v (skipWs rest)
      | none => none

/-- After one array element: `,` and more elements, or the closing `]`. -/
def parseElemsTail : Nat → JVal → List Char → Option (List JVal × List Char)
  | 0, _, _ => none
  | _ + 1, _, [] => none
  | fuel + 1, v, d :: r1 =>
      if d = ',' then (parseElems fuel r1).map (fun p => (v :: p.1, p.2))
      else if d = ']' then some ([v], r1)
      else none

/-- One or more comma-separated object members followed by the closing
brace. -/
def parseMembers : Nat → List Char → Option (List (String × JVal) × List Char)
  | 0, _ => none
  | fuel + 1, cs => parseMembersHead fuel (skipWs cs)

/-- A member: quoted key, then separator and value. -/
def parseMembersHead : Nat → List Char → Option (List (String × JVal) × List Char)
  | 0, _ => none
  | _ + 1, [] => none
  | fuel + 1, c :: rest =>
      if c = '"' then
        match parseStringBody rest with
        | some (k, rest1) => parseMemberSep fuel (String.mk k) (skipWs rest1)
        | none => none
      else none

/-- After a member key: `:` and the value. -/
def parseMemberSep : Nat → String → List Char → Option (List (String × JVal) × List Char)
  | 0, _, _ => none
  | _ + 1, _, [] => none
  | fuel + 1, k, d :: rest2 =>
      if d = ':' then
        match parseVal fuel rest2 with
        | some (v, rest3) => parseMembersTail fuel k v (skipWs rest3)
        | none => none
      else none

/-- After one member: `,` and more members, or the closing brace. -/
def parseMembersTail : Nat → String → JVal → List Char →
    Option (List (String × JVal) × List Char)
  | 0, _, _, _ => none
  | _ + 1, _, _, [] => none
  | fuel + 1, k, v, e :: rest4 =>
      if e = ',' then (parseMembers fuel rest4).map (fun p => ((k, v) :: p.1, p.2))
      else if e = '\x7d' then some ([(k, v)], rest4)
      else none

end

/-- `json.loads`: parse a complete JSON document, allowing only trailing
whitespace. -/
def loads (s : String) : Option JVal :=
  match parseVal (4 * s.data.length + 4) s.data with
  | some (v, rest) => if skipWs rest = [] then some v else none
  | none => none

/-! ## Data model: the four SQLite tables of `init_database` -/

/-- Row of table `usuarios`. -/
structure Usuario where
  id : Nat
  usuario : String
  senha : String
  nome : String
  email : Option String
  nivel_acesso : String
  ativo : Bool
  ultimo_login : Option Nat
deriving DecidableEq, Repr

/-- Row of table `solicitantes`. -/
structure Solicitante where
  id : Nat
  nome : String
  email : Option String
  telefone : Option String
  departamento : Option String
deriving DecidableEq, Repr

/-- Row of table `protocolos`. -/
structure Protocolo where
  id : Nat
  numero_protocolo : String
  titulo : String
  descricao : Option String
  tipo_documento : String
  status : String
  data_protocolo : String
  data_prazo : Option String
  solicitante_id : Option Nat
  observacoes : Option String
  criado_por : Option Nat
deriving DecidableEq, Repr

/-- Row of table `logs_usuario`; `timestamp` is seconds since the epoch
(`DATE(timestamp)` is `timestamp / 86400`). -/
structure LogRow where
  id : Nat
  usuario_id : Option Nat
  acao : String
  tabela_afetada : String
  registro_id : Option Nat
  detalhes : Option String
  ip_address : Option String
  user_agent : Option String
  timestamp : Nat
  status : String
deriving DecidableEq, Repr

/-- Database state: the four tables plus the `AUTOINCREMENT` counters that
supply `cursor.lastrowid`. -/
structure DB where
  usuarios : List Usuario
  solicitantes : List Solicitante
  protocolos : List Protocolo
  logs_usuario : List LogRow
  next_usuario_id : Nat
  next_solicitante_id : Nat
  next_protocolo_id : Nat
  next_log_id : Nat
deriving DecidableEq, Repr

/-- The `detalhes` argument of `registrar_log`: Python passes `None`,
a string, or a dictionary. -/
inductive Detalhes : Type where
  | nul : Detalhes
  | text (s : String) : Detalhes
  | dict (kvs : List (String × JVal)) : Detalhes

/-! ## `LogManager` -/

/-- `LogManager.registrar_log`: serializes a dictionary `detalhes` with
`json.dumps` and appends exactly one row to `logs_usuario` with
server-assigned timestamp. -/
def registrar_log (db : DB) (now : Nat) (usuario_id : Option Nat)
    (acao tabela_afetada : String) (registro_id : Option Nat)
    (detalhes : Detalhes) (status : String)
    (ip_address user_agent : Option String) : DB :=
  let det : Option String :=
    match detalhes with
    | .nul => none
    | .text s => some s
    | .dict kvs => some (dumps (.obj kvs))
  { db with
    logs_usuario := db.logs_usuario ++
      [{ id := db.next_log_id, usuario_id := usuario_id, acao := acao,
         tabela_afetada := tabela_afetada, registro_id := registro_id,
         detalhes := det, ip_address := ip_address, user_agent := user_agent,
         timestamp := now, status := status }],
    next_log_id := db.next_log_id + 1 }

/-- A row of the `buscar_logs` result: the log row joined (LEFT JOIN) with
the acting user's name. -/
structure LogView where
  row : LogRow
  usuario_nome : Option String
deriving DecidableEq, Repr

/-- The `u.nome` produced by `LEFT JOIN usuarios u ON l.usuario_id = u.id`:
null when the actor is null or no longer exists. -/
def joinNome (db : DB) (uid : Option Nat) : Option String :=
  match uid with
  | none => none
  | some i => (db.usuarios.find? (fun u => u.id == i)).map (fun u => u.nome)

/-- Descending-timestamp comparison used for `ORDER BY l.timestamp DESC`. -/
def byTimestampDesc (a b : LogRow) : Prop := b.timestamp ≤ a.timestamp

instance : DecidableRel byTimestampDesc := fun a b => Nat.decLe b.timestamp a.timestamp

instance : IsTotal LogRow byTimestampDesc :=
  ⟨fun a b => Nat.le_total b.timestamp a.timestamp⟩

instance : IsTrans LogRow byTimestampDesc :=
  ⟨fun _ _ _ hab hbc => Nat.le_trans hbc hab⟩

/-- The AND-combined optional filters of `buscar_logs`; an absent filter
constrains nothing, the date filters compare the date component of the
timestamp inclusively. -/
def buscar_logs_cond (filtro_usuario : Option Nat)
    (filtro_tabela filtro_acao : Option String)
    (data_inicio data_fim : Option Nat) (l : LogRow) : Bool :=
  (match filtro_usuario with | none => true | some u => l.usuario_id == some u) &&
  (match filtro_tabela with | none => true | some t => l.tabela_afetada == t) &&
  (match filtro_acao with | none => true | some a => l.acao == a) &&
  (match data_inicio with | none => true | some d => d ≤ l.timestamp / 86400) &&
  (match data_fim with | none => true | some d => l.timestamp / 86400 ≤ d)

/-- `LogManager.buscar_logs`: AND-combined optional filters, date filters on
the date component, newest first, at most `limite` rows, joined with the
actor's name. -/
def buscar_logs (db : DB) (filtro_usuario : Option Nat)
    (filtro_tabela filtro_acao : Option String)
    (data_inicio data_fim : Option Nat) (limite : Nat) : List LogView :=
  (((db.logs_usuario.filter
      (buscar_logs_cond filtro_usuario filtro_tabela filtro_acao data_inicio
        data_fim)).insertionSort byTimestampDesc).take limite).map
    (fun l => { row := l, usuario_nome := joinNome db l.usuario_id })

/-- Occurrence counts of each distinct key, one result row per key
(`GROUP BY` with `COUNT(*)`). -/
def groupCounts {α : Type} [DecidableEq α] (keys : List α) : List (α × Nat) :=
  keys.dedup.map (fun k => (k, (keys.filter (fun x => x == k)).length))

/-- Descending-count comparison used for `ORDER BY total DESC`. -/
def byCountDesc {α : Type} (a b : α × Nat) : Prop := b.2 ≤ a.2

instance {α : Type} : DecidableRel (byCountDesc (α := α)) :=
  fun a b => Nat.decLe b.2 a.2

instance {α : Type} : IsTotal (α × Nat) byCountDesc :=
  ⟨fun a b => Nat.le_total b.2 a.2⟩

instance {α : Type} : IsTrans (α × Nat) byCountDesc :=
  ⟨fun _ _ _ hab hbc => Nat.le_trans hbc hab⟩

/-- First result of `LogManager.estatisticas_logs`: occurrences per action,
descending by count. -/
def estatisticas_acoes (db : DB) : List (String × Nat) :=
  (groupCounts (db.logs_usuario.map (fun l => l.acao))).insertionSort byCountDesc

/-- Second result of `LogManager.estatisticas_logs`: rows grouped by
`l.usuario_id, u.nome` (the joined name is null for a null or deleted
actor), descending by count. -/
def estatisticas_usuarios (db : DB) : List ((Option Nat × Option String) × Nat) :=
  (groupCounts (db.logs_usuario.map
    (fun l => (l.usuario_id, joinNome db l.usuario_id)))).insertionSort byCountDesc

/-- Third result of `LogManager.estatisticas_logs`: per-day counts of the
rows with `timestamp >= datetime('now', '-30 days')`, grouped by calendar
date, ascending by date. -/
def estatisticas_diario (db : DB) (now : Nat) : List (Nat × Nat) :=
  ((((db.logs_usuario.filter (fun l => now - 30 * 86400 ≤ l.timestamp)).map
      (fun l => l.timestamp / 86400)).dedup).insertionSort (fun a b => a ≤ b)).map
    (fun d => (d,
      ((db.logs_usuario.filter (fun l => now - 30 * 86400 ≤ l.timestamp)).filter
        (fun l => l.timestamp / 86400 == d)).length))

/-! ## `DatabaseManager` -/

/-- Zero-padding of Python's `'{0:04d}'.format` on a decimal numeral. -/
def pad4 (n : Nat) : String :=
  let s := natChars n
  String.mk (List.replicate (4 - s.length) '0' ++ s)

/-- `DatabaseManager.gerar_numero_protocolo`: `PROT-{ano}-{count+1:04d}`
where `count` is the current number of rows of `protocolos` and `ano` the
current calendar year.  Pure read: it inserts nothing. -/
def gerar_numero_protocolo (db : DB) (ano : Nat) : String :=
  "PROT-" ++ String.mk (natChars ano) ++ "-" ++ pad4 (db.protocolos.length + 1)

/-! ## `AuthManager` -/

/-- `AuthManager.login`.  `hash` stands for `hashlib.sha256(...).hexdigest()`
(external to the repository); the row lookup is
`WHERE usuario = ? AND senha = ? AND ativo = 1`.  On success the user's
`ultimo_login` is set and a LOGIN entry is appended; on failure only a
LOGIN_FALHOU entry with null actor and status `erro` is appended. -/
def login (hash : String → String) (db : DB) (now : Nat)
    (usuario senha : String) : DB × Option Usuario :=
  match db.usuarios.find?
      (fun u => u.usuario == usuario && u.senha == hash senha && u.ativo) with
  | some u =>
      let db1 := { db with
        usuarios := db.usuarios.map
          (fun x => if x.id == u.id then { x with ultimo_login := some now } else x) }
      (registrar_log db1 now (some u.id) "LOGIN" "usuarios" (some u.id)
        (.text ("Login realizado com sucesso para usuário: " ++ u.usuario))
        "sucesso" none none, some u)
  | none =>
      (registrar_log db now none "LOGIN_FALHOU" "usuarios" none
        (.text ("Tentativa de login falhada para usuário: " ++ usuario))
        "erro" none none, none)

/-- `AuthManager.criar_usuario`: inserts unless the login already exists
(UNIQUE constraint -> `sqlite3.IntegrityError`), then logs CRIAR on success
or CRIAR_USUARIO_ERRO on failure; returns the Python boolean result. -/
def criar_usuario (hash : String → String) (db : DB) (now : Nat)
    (usuario senha nome : String) (email : Option String)
    (nivel_acesso : String) (criado_por_id : Option Nat) : DB × Bool :=
  if db.usuarios.any (fun u => u.usuario == usuario) then
    (registrar_log db now criado_por_id "CRIAR_USUARIO_ERRO" "usuarios" none
      (.text ("Erro ao criar usuário: " ++ usuario ++ " - Usuário já existe"))
      "erro" none none, false)
  else
    let novo : Usuario :=
      { id := db.next_usuario_id, usuario := usuario, senha := hash senha,
        nome := nome, email := email, nivel_acesso := nivel_acesso,
        ativo := true, ultimo_login := none }
    let db1 := { db with
      usuarios := db.usuarios ++ [novo]
      next_usuario_id := db.next_usuario_id + 1 }
    (registrar_log db1 now criado_por_id "CRIAR" "usuarios" (some novo.id)
      (.dict [("usuario_criado", .str usuario), ("nome", .str nome),
              ("email", match email with | none => .null | some e => .str e),
              ("nivel_acesso", .str nivel_acesso)])
      "sucesso" none none, true)

/-- JSON value of an optional string column, for before/after diffs. -/
def jOptStr : Option String → JVal
  | none => .null
  | some s => .str s

/-- `AuthManager.atualizar_usuario`: reads the old row, rewrites the
editable columns, logs ATUALIZAR with per-field before/after diffs.  `none`
models the `TypeError` Python raises when the id does not exist (the log
line subscripts the missing old row). -/
def atualizar_usuario (db : DB) (now : Nat) (id : Nat) (nome : String)
    (email : Option String) (nivel_acesso : String) (ativo : Bool)
    (atualizado_por_id : Option Nat) : Option DB :=
  match db.usuarios.find? (fun u => u.id == id) with
  | none => none
  | some dados_antigos =>
      let db1 := { db with
        usuarios := db.usuarios.map (fun u =>
          if u.id == id then
            { u with
              nome := nome
              email := email
              nivel_acesso := nivel_acesso
              ativo := ativo }
          else u) }
      some (registrar_log db1 now atualizado_por_id "ATUALIZAR" "usuarios"
        (some id)
        (.dict [("campos_alterados", .obj
          [("nome", .obj [("antes", .str dados_antigos.nome), ("depois", .str nome)]),
           ("email", .obj [("antes", jOptStr dados_antigos.email), ("depois", jOptStr email)]),
           ("nivel_acesso", .obj [("antes", .str dados_antigos.nivel_acesso),
                                  ("depois", .str nivel_acesso)]),
           ("ativo", .obj [("antes", .bool dados_antigos.ativo), ("depois", .bool ativo)])])])
        "sucesso" none none)

/-- `AuthManager.alterar_senha`: overwrites the hash and logs
ALTER_SENHA-style entry (action `ALTERAR_SENHA`). -/
def alterar_senha (hash : String → String) (db : DB) (now : Nat) (id : Nat)
    (nova_senha : String) (alterado_por_id : Option Nat) : DB :=
  let db1 := { db with
    usuarios := db.usuarios.map (fun u =>
      if u.id == id then { u with senha := hash nova_senha } else u) }
  registrar_log db1 now alterado_por_id "ALTERAR_SENHA" "usuarios" (some id)
    (.text ("Senha alterada para usuário ID: " ++ String.mk (natChars id)))
    "sucesso" none none

/-- `AuthManager.deletar_usuario`: captures login and name, hard-deletes the
row, logs DELETAR with the captured snapshot.  `none` models the Python
`TypeError` on a missing id. -/
def deletar_usuario (db : DB) (now : Nat) (id : Nat)
    (deletado_por_id : Option Nat) : Option DB :=
  match db.usuarios.find? (fun u => u.id == id) with
  | none => none
  | some dados_usuario =>
      let db1 := { db with usuarios := db.usuarios.filter (fun u => !(u.id == id)) }
      some (registrar_log db1 now deletado_por_id "DELETAR" "usuarios" (some id)
        (.dict [("usuario_deletado", .str dados_usuario.usuario),
                ("nome_deletado", .str dados_usuario.nome)])
        "sucesso" none none)

/-! ## `SolicitantesCRUD` -/

/-- `SolicitantesCRUD.criar`: inserts and logs CRIAR with the new row id. -/
def solicitantes_criar (db : DB) (now : Nat) (nome : String)
    (email telefone departamento : Option String)
    (criado_por_id : Option Nat) : DB :=
  let novo : Solicitante :=
    { id := db.next_solicitante_id, nome := nome, email := email,
      telefone := telefone, departamento := departamento }
  let db1 := { db with
    solicitantes := db.solicitantes ++ [novo]
    next_solicitante_id := db.next_solicitante_id + 1 }
  registrar_log db1 now criado_por_id "CRIAR" "solicitantes" (some novo.id)
    (.dict [("nome", .str nome), ("email", jOptStr email),
            ("telefone", jOptStr telefone),
            ("departamento", jOptStr departamento)])
    "sucesso" none none

/-- `SolicitantesCRUD.atualizar`: reads the old row, rewrites the columns,
logs ATUALIZAR with per-field before/after diffs.  `none` models the Python
`TypeError` on a missing id. -/
def solicitantes_atualizar (db : DB) (now : Nat) (id : Nat) (nome : String)
    (email telefone departamento : Option String)
    (atualizado_por_id : Option Nat) : Option DB :=
  match db.solicitantes.find? (fun s => s.id == id) with
  | none => none
  | some dados_antigos =>
      let db1 := { db with
        solicitantes := db.solicitantes.map (fun s =>
          if s.id == id then
            { s with
              nome := nome
              email := email
              telefone := telefone
              departamento := departamento }
          else s) }
      some (registrar_log db1 now atualizado_por_id "ATUALIZAR" "solicitantes"
        (some id)
        (.dict [("campos_alterados", .obj
          [("nome", .obj [("antes", .str dados_antigos.nome), ("depois", .str nome)]),
           ("email", .obj [("antes", jOptStr dados_antigos.email), ("depois", jOptStr email)]),
           ("telefone", .obj [("antes", jOptStr dados_antigos.telefone),
                              ("depois", jOptStr telefone)]),
           ("departamento", .obj [("antes", jOptStr dados_antigos.departamento),
                                  ("depois", jOptStr departamento)])])])
        "sucesso" none none)

/-- `SolicitantesCRUD.deletar`: captures the name, deletes the row, logs
DELETAR.  `none` models the Python `TypeError` on a missing id. -/
def solicitantes_deletar (db : DB) (now : Nat) (id : Nat)
    (deletado_por_id : Option Nat) : Option DB :=
  match db.solicitantes.find? (fun s => s.id == id) with
  | none => none
  | some dados =>
      let db1 := { db with
        solicitantes := db.solicitantes.filter (fun s => !(s.id == id)) }
      some (registrar_log db1 now deletado_por_id "DELETAR" "solicitantes"
        (some id)
        (.text ("Solicitante deletado: " ++ dados.nome))
        "sucesso" none none)

/-! ## `ProtocolosCRUD` -/

/-- `ProtocolosCRUD.criar`: generates the number from the current row count,
inserts with default status `Pendente`, logs CRIAR with the new row id, and
returns the generated number. -/
def protocolos_criar (db : DB) (now : Nat) (ano : Nat)
    (titulo : String) (descricao : Option String) (tipo_documento : String)
    (data_protocolo : String) (data_prazo : Option String)
    (solicitante_id : Option Nat) (observacoes : Option String)
    (criado_por : Option Nat) : DB × String :=
  let numero_protocolo := gerar_numero_protocolo db ano
  let novo : Protocolo :=
    { id := db.next_protocolo_id, numero_protocolo := numero_protocolo,
      titulo := titulo, descricao := descricao,
      tipo_documento := tipo_documento, status := "Pendente",
      data_protocolo := data_protocolo, data_prazo := data_prazo,
      solicitante_id := solicitante_id, observacoes := observacoes,
      criado_por := criado_por }
  let db1 := { db with
    protocolos := db.protocolos ++ [novo]
    next_protocolo_id := db.next_protocolo_id + 1 }
  (registrar_log db1 now criado_por "CRIAR" "protocolos" (some novo.id)
    (.dict [("numero_protocolo", .str numero_protocolo),
            ("titulo", .str titulo),
            ("tipo_documento", .str tipo_documento),
            ("solicitante_id", match solicitante_id with
                               | none => .null
                               | some i => .int (i : Int))])
    "sucesso" none none, numero_protocolo)

/-- `ProtocolosCRUD.atualizar`: reads the old row, rewrites every editable
column (the protocol number is not among them), logs ATUALIZAR with the old
number and diffs for title, status and document type.  `none` models the
Python `TypeError` on a missing id. -/
def protocolos_atualizar (db : DB) (now : Nat) (id : Nat) (titulo : String)
    (descricao : Option String) (tipo_documento status data_protocolo : String)
    (data_prazo : Option String) (solicitante_id : Option Nat)
    (observacoes : Option String) (atualizado_por_id : Option Nat) : Option DB :=
  match db.protocolos.find? (fun p => p.id == id) with
  | none => none
  | some dados_antigos =>
      let db1 := { db with
        protocolos := db.protocolos.map (fun p =>
          if p.id == id then
            { p with
              titulo := titulo
              descricao := descricao
              tipo_documento := tipo_documento
              status := status
              data_protocolo := data_protocolo
              data_prazo := data_prazo
              solicitante_id := solicitante_id
              observacoes := observacoes }
          else p) }
      some (registrar_log db1 now atualizado_por_id "ATUALIZAR" "protocolos"
        (some id)
        (.dict [("numero_protocolo", .str dados_antigos.numero_protocolo),
                ("campos_alterados", .obj
          [("titulo", .obj [("antes", .str dados_antigos.titulo), ("depois", .str titulo)]),
           ("status", .obj [("antes", .str dados_antigos.status), ("depois", .str status)]),
           ("tipo_documento", .obj [("antes", .str dados_antigos.tipo_documento),
                                    ("depois", .str tipo_documento)])])])
        "sucesso" none none)

/-- `ProtocolosCRUD.deletar`: captures number and title, deletes the row,
logs DELETAR with the snapshot.  `none` models the Python `TypeError` on a
missing id. -/
def protocolos_deletar (db : DB) (now : Nat) (id : Nat)
    (deletado_por_id : Option Nat) : Option DB :=
  match db.protocolos.find? (fun p => p.id == id) with
  | none => none
  | some dados =>
      let db1 := { db with
        protocolos := db.protocolos.filter (fun p => !(p.id == id)) }
      some (registrar_log db1 now deletado_por_id "DELETAR" "protocolos"
        (some id)
        (.dict [("numero_protocolo", .str dados.numero_protocolo),
                ("titulo", .str dados.titulo)])
        "sucesso" none none)

/-- `ProtocolosCRUD.buscar_por_id`. -/
def protocolos_buscar_por_id (db : DB) (id : Nat) : Option Protocolo :=
  db.protocolos.find? (fun p => p.id == id)

/-! ## Access policy -/

/-- `verificar_permissao`: `user_data` is the logged-in row from
`st.session_state` (absent when nobody is logged in); index 3 of that row is
`nivel_acesso`. -/
def verificar_permissao (user_data : Option Usuario) (nivel_requerido : String) : Bool :=
  match user_data with
  | none => false
  | some u =>
      if nivel_requerido == "admin" then u.nivel_acesso == "admin"
      else if nivel_requerido == "usuario" then
        u.nivel_acesso == "admin" || u.nivel_acesso == "usuario"
      else false

/-- The protocol-edit permission check of `gerenciar_protocolos`:
`is_admin or (protocolo_criado_por == current_user_id)`, where
`protocolo_criado_por` is column index 10 (`criado_por`) of the 12-column
protocol row and `is_admin` compares the session row's `nivel_acesso` with
`'admin'`. -/
def pode_editar (user_data : Usuario) (protocolo : Protocolo) : Bool :=
  (user_data.nivel_acesso == "admin") || (protocolo.criado_por == some user_data.id)

/-! ## Round-trip of the JSON embedding -/

theorem natCharsAux_congr : ∀ fuel fuel' m, m < fuel → m < fuel' →
    natCharsAux fuel m = natCharsAux fuel' m := by
  intro fuel
  induction fuel with
  | zero => intro fuel' m h; omega
  | succ f ih =>
      intro fuel' m h h'
      match fuel', h' with
      | g + 1, _ =>
        by_cases h10 : m < 10
        · simp [natCharsAux, h10]
        · have hm : 0 < m := by omega
          have hdiv : m / 10 < m := Nat.div_lt_self hm (by omega)
          simp only [natCharsAux, if_neg h10]
          rw [ih g (m / 10) (by omega) (by omega)]

theorem natChars_eq (m : Nat) : natChars m =
    if m < 10 then [digitChar m]
    else natChars (m / 10) ++ [digitChar (m % 10)] := by
  by_cases h10 : m < 10
  · simp [natChars, natCharsAux, h10]
  · have hdiv : m / 10 < m := Nat.div_lt_self (by omega) (by omega)
    rw [if_neg h10]
    have h1 : natCharsAux (m + 1) m = natCharsAux m (m / 10) ++ [digitChar (m % 10)] := by
      simp only [natCharsAux]
      rw [if_neg h10]
    show natCharsAux (m + 1) m = natCharsAux (m / 10 + 1) (m / 10) ++ [digitChar (m % 10)]
    rw [h1, natCharsAux_congr m (m / 10 + 1) (m / 10) (by omega) (by omega)]

theorem digitChar_isDigit {k : Nat} (h : k < 10) : (digitChar k).isDigit = true := by
  interval_cases k <;> decide

theorem digitChar_toNat {k : Nat} (h : k < 10) : (digitChar k).toNat = 48 + k := by
  interval_cases k <;> decide

theorem natChars_digits (m : Nat) : ∀ c ∈ natChars m, c.isDigit = true := by
  induction m using Nat.strong_induction_on with
  | _ m ih =>
      rw [natChars_eq]
      by_cases h10 : m < 10
      · simp only [if_pos h10, List.mem_singleton]
        rintro c rfl
        exact digitChar_isDigit h10
      · simp only [if_neg h10, List.mem_append, List.mem_singleton]
        rintro c (hc | rfl)
        · exact ih (m / 10) (Nat.div_lt_self (by omega) (by omega)) c hc
        · exact digitChar_isDigit (Nat.mod_lt _ (by omega))

theorem natChars_head (m : Nat) : ∃ k tl, k < 10 ∧ natChars m = digitChar k :: tl := by
  induction m using Nat.strong_induction_on with
  | _ m ih =>
      rw [natChars_eq]
      by_cases h10 : m < 10
      · exact ⟨m, [], h10, by simp [h10]⟩
      · obtain ⟨k, tl, hk, htl⟩ := ih (m / 10) (Nat.div_lt_self (by omega) (by omega))
        exact ⟨k, tl ++ [digitChar (m % 10)], hk, by simp [h10, htl]⟩

/-- No leading digit: the parser may stop a numeral here. -/
def ndh : List Char → Bool
  | [] => true
  | c :: _ => !c.isDigit

theorem takeDigits_of_digits : ∀ ds rest, (∀ c ∈ ds, c.isDigit = true) →
    ndh rest = true → takeDigits (ds ++ rest) = (ds, rest) := by
  intro ds
  induction ds with
  | nil =>
      intro rest _ hrest
      match rest, hrest with
      | [], _ => rfl
      | c :: cs, hr =>
        have : c.isDigit = false := by
          simpa [ndh] using hr
        simp [takeDigits, this]
  | cons d ds ih =>
      intro rest hds hrest
      have hd : d.isDigit = true := hds d (by simp)
      simp [takeDigits, hd, ih rest (fun c hc => hds c (by simp [hc])) hrest]

theorem digitsVal_snoc (l : List Char) (c : Char) :
    digitsVal (l ++ [c]) = 10 * digitsVal l + (c.toNat - 48) := by
  simp [digitsVal, List.foldl_append, Nat.mul_comm]

theorem digitsVal_natChars (m : Nat) : digitsVal (natChars m) = m := by
  induction m using Nat.strong_induction_on with
  | _ m ih =>
      rw [natChars_eq]
      by_cases h10 : m < 10
      · simp [if_pos h10, digitsVal, digitChar_toNat h10]
      · rw [if_neg h10, digitsVal_snoc,
            ih (m / 10) (Nat.div_lt_self (by omega) (by omega)),
            digitChar_toNat (Nat.mod_lt _ (by omega))]
        omega

theorem parseNatPart_natChars (m : Nat) (rest : List Char) (h : ndh rest = true) :
    parseNatPart (natChars m ++ rest) = some (m, rest) := by
  obtain ⟨k, tl, hk, htl⟩ := natChars_head m
  have hne : natChars m ≠ [] := by simp [htl]
  simp [parseNatPart, takeDigits_of_digits (natChars m) rest (natChars_digits m) h,
        hne, digitsVal_natChars]

theorem skipWs_cons {c : Char} (h : isWsChar c = false) (l : List Char) :
    skipWs (c :: l) = c :: l := by
  simp [skipWs, h]

theorem skipWs_space (cs : List Char) : skipWs (' ' :: cs) = skipWs cs := by
  simp [skipWs, isWsChar]

theorem parseVal_cons_space (f : Nat) (cs : List Char) :
    parseVal f (' ' :: cs) = parseVal f cs := by
  cases f with
  | zero => rfl
  | succ g =>
      simp only [parseVal]
      rw [skipWs_space]

theorem parseElems_cons_space (f : Nat) (cs : List Char) :
    parseElems f (' ' :: cs) = parseElems f cs := by
  cases f with
  | zero => rfl
  | succ g =>
      simp only [parseElems]
      rw [parseVal_cons_space]

theorem parseMembers_cons_space (f : Nat) (cs : List Char) :
    parseMembers f (' ' :: cs) = parseMembers f cs := by
  cases f with
  | zero => rfl
  | succ g =>
      simp only [parseMembers]
      rw [skipWs_space]

theorem hexVal_hexDigitChar {k : Nat} (h : k < 16) : hexVal (hexDigitChar k) = some k := by
  interval_cases k <;> decide

theorem psb_close (rest : List Char) : parseStringBody ('"' :: rest) = some ([], rest) := by
  rw [parseStringBody.eq_def]
  rfl

theorem psb_esc_quote (T : List Char) : parseStringBody ('\\' :: '"' :: T) =
    (parseStringBody T).map (fun p => ('"' :: p.1, p.2)) := by
  rw [parseStringBody.eq_def]
  rfl

theorem psb_esc_back (T : List Char) : parseStringBody ('\\' :: '\\' :: T) =
    (parseStringBody T).map (fun p => ('\\' :: p.1, p.2)) := by
  rw [parseStringBody.eq_def]
  rfl

theorem psb_esc_b (T : List Char) : parseStringBody ('\\' :: 'b' :: T) =
    (parseStringBody T).map (fun p => ('\x08' :: p.1, p.2)) := by
  rw [parseStringBody.eq_def]
  rfl

theorem psb_esc_t (T : List Char) : parseStringBody ('\\' :: 't' :: T) =
    (parseStringBody T).map (fun p => ('\x09' :: p.1, p.2)) := by
  rw [parseStringBody.eq_def]
  rfl

theorem psb_esc_n (T : List Char) : parseStringBody ('\\' :: 'n' :: T) =
    (parseStringBody T).map (fun p => ('\x0a' :: p.1, p.2)) := by
  rw [parseStringBody.eq_def]
  rfl

theorem psb_esc_f (T : List Char) : parseStringBody ('\\' :: 'f' :: T) =
    (parseStringBody T).map (fun p => ('\x0c' :: p.1, p.2)) := by
  rw [parseStringBody.eq_def]
  rfl

theorem psb_esc_r (T : List Char) : parseStringBody ('\\' :: 'r' :: T) =
    (parseStringBody T).map (fun p => ('\x0d' :: p.1, p.2)) := by
  rw [parseStringBody.eq_def]
  rfl

theorem psb_esc_u (h1 h2 h3 h4 : Char) (T : List Char) (a b c d : Nat)
    (ha : hexVal h1 = some a) (hb : hexVal h2 = some b)
    (hc : hexVal h3 = some c) (hd : hexVal h4 = some d) :
    parseStringBody ('\\' :: 'u' :: h1 :: h2 :: h3 :: h4 :: T) =
    (parseStringBody T).map
      (fun p => (Char.ofNat (((a * 16 + b) * 16 + c) * 16 + d) :: p.1, p.2)) := by
  rw [parseStringBody.eq_def]
  simp only [ha, hb, hc, hd]
  rfl

theorem psb_plain (c : Char) (T : List Char) (h1 : ¬c = '"') (h2 : ¬c = '\\')
    (h8 : ¬c.toNat < 32) :
    parseStringBody (c :: T) = (parseStringBody T).map (fun p => (c :: p.1, p.2)) := by
  rw [parseStringBody.eq_def]
  simp only [if_neg h1, if_neg h2, if_neg h8]

theorem parseStringBody_flatten : ∀ cs rest,
    parseStringBody ((cs.map escapeChar).flatten ++ '"' :: rest) = some (cs, rest) := by
  intro cs
  induction cs with
  | nil => intro rest; simpa using psb_close rest
  | cons c cs ih =>
      intro rest
      simp only [List.map_cons, List.flatten_cons, List.append_assoc]
      by_cases h1 : c = '"'
      · subst h1
        rw [show escapeChar '"' = ['\\', '"'] from rfl]
        simp only [List.cons_append, List.nil_append]
        rw [psb_esc_quote, ih rest]
        rfl
      by_cases h2 : c = '\\'
      · subst h2
        rw [show escapeChar '\\' = ['\\', '\\'] from rfl]
        simp only [List.cons_append, List.nil_append]
        rw [psb_esc_back, ih rest]
        rfl
      by_cases h3 : c = '\x08'
      · subst h3
        rw [show escapeChar '\x08' = ['\\', 'b'] from rfl]
        simp only [List.cons_append, List.nil_append]
        rw [psb_esc_b, ih rest]
        rfl
      by_cases h4 : c = '\x09'
      · subst h4
        rw [show escapeChar '\x09' = ['\\', 't'] from rfl]
        simp only [List.cons_append, List.nil_append]
        rw [psb_esc_t, ih rest]
        rfl
      by_cases h5 : c = '\x0a'
      · subst h5
        rw [show escapeChar '\x0a' = ['\\', 'n'] from rfl]
        simp only [List.cons_append, List.nil_append]
        rw [psb_esc_n, ih rest]
        rfl
      by_cases h6 : c = '\x0c'
      · subst h6
        rw [show escapeChar '\x0c' = ['\\', 'f'] from rfl]
        simp only [List.cons_append, List.nil_append]
        rw [psb_esc_f, ih rest]
        rfl
      by_cases h7 : c = '\x0d'
      · subst h7
        rw [show escapeChar '\x0d' = ['\\', 'r'] from rfl]
        simp only [List.cons_append, List.nil_append]
        rw [psb_esc_r, ih rest]
        rfl
      by_cases h8 : c.toNat < 32
      · have hdiv : c.toNat / 16 < 16 := by omega
        have hmod : c.toNat % 16 < 16 := by omega
        have henc : escapeChar c =
            ['\\', 'u', '0', '0', hexDigitChar (c.toNat / 16), hexDigitChar (c.toNat % 16)] := by
          simp [escapeChar, h1, h2, h3, h4, h5, h6, h7, if_pos h8]
        rw [henc]
        simp only [List.cons_append, List.nil_append]
        rw [psb_esc_u '0' '0' _ _ _ 0 0 (c.toNat / 16) (c.toNat % 16) rfl rfl
              (hexVal_hexDigitChar hdiv) (hexVal_hexDigitChar hmod), ih rest]
        have harith : ((0 * 16 + 0) * 16 + c.toNat / 16) * 16 + c.toNat % 16 = c.toNat := by
          omega
        rw [harith, Char.ofNat_toNat]
        rfl
      · have henc : escapeChar c = [c] := by
          simp [escapeChar, h1, h2, h3, h4, h5, h6, h7, h8]
        rw [henc]
        simp only [List.cons_append, List.nil_append]
        rw [psb_plain c _ h1 h2 h8, ih rest]
        rfl

mutual

/-- Fuel needed by `parseVal` to consume an encoded value. -/
def sizeV : JVal → Nat
  | .null => 2
  | .bool _ => 2
  | .int _ => 2
  | .str _ => 2
  | .arr xs => 3 + sizeL xs
  | .obj kvs => 3 + sizeM kvs

/-- Fuel needed by `parseElems` to consume an encoded element list. -/
def sizeL : List JVal → Nat
  | [] => 0
  | x :: xs => 2 + sizeV x + sizeL xs

/-- Fuel needed by `parseMembers` to consume an encoded member list. -/
def sizeM : List (String × JVal) → Nat
  | [] => 0
  | (_, v) :: ms => 3 + sizeV v + sizeM ms

end

theorem two_le_sizeV (v : JVal) : 2 ≤ sizeV v := by
  cases v <;> simp [sizeV] <;> omega

/-- The separator-and-tail part of an encoded element list. -/
def encLSep : List JVal → List Char
  | [] => []
  | x :: xs => ',' :: ' ' :: encL (x :: xs)

theorem encL_cons (x : JVal) (xs : List JVal) :
    encL (x :: xs) = encV x ++ encLSep xs := by
  cases xs with
  | nil => simp [encL, encLSep]
  | cons y ys => simp [encL, encLSep]

/-- The separator-and-tail part of an encoded member list. -/
def encMSep : List (String × JVal) → List Char
  | [] => []
  | m :: ms => ',' :: ' ' :: encM (m :: ms)

theorem encM_cons (k : String) (v : JVal) (ms : List (String × JVal)) :
    encM ((k, v) :: ms) = encString k ++ ':' :: ' ' :: (encV v ++ encMSep ms) := by
  cases ms with
  | nil => simp [encM, encMSep]
  | cons m ms' => simp [encM, encMSep]

theorem not_ws_of_isDigit {c : Char} (hc : c.isDigit = true) : isWsChar c = false := by
  cases hw : isWsChar c with
  | false => rfl
  | true =>
      exfalso
      have hor : ((c = ' ' ∨ c = '\x09') ∨ c = '\x0a') ∨ c = '\x0d' := by
        simpa [isWsChar] using hw
      rcases hor with ((h | h) | h) | h <;> subst h <;> exact absurd hc (by decide)

theorem encV_head (v : JVal) : ∃ d tl, encV v = d :: tl ∧ isWsChar d = false ∧
    ¬d = ']' ∧ ¬d = '\x7d' := by
  cases v with
  | null => exact ⟨'n', ['u', 'l', 'l'], by simp [encV], by decide, by decide, by decide⟩
  | bool b =>
      cases b with
      | true => exact ⟨'t', ['r', 'u', 'e'], by simp [encV], by decide, by decide, by decide⟩
      | false =>
          exact ⟨'f', ['a', 'l', 's', 'e'], by simp [encV], by decide, by decide, by decide⟩
  | str s =>
      exact ⟨'"', (s.data.map escapeChar).flatten ++ ['"'],
        by simp [encV, encString], by decide, by decide, by decide⟩
  | arr xs => exact ⟨'[', encL xs ++ [']'], by simp [encV], by decide, by decide, by decide⟩
  | obj kvs =>
      exact ⟨'\x7b', encM kvs ++ ['\x7d'], by simp [encV], by decide, by decide, by decide⟩
  | int n =>
      by_cases hn : n < 0
      · refine ⟨'-', natChars n.natAbs, ?_, by decide, by decide, by decide⟩
        simp [encV, encInt, hn]
      · obtain ⟨k, tl, hk, htl⟩ := natChars_head n.natAbs
        refine ⟨digitChar k, tl, ?_, not_ws_of_isDigit (digitChar_isDigit hk), ?_, ?_⟩
        · simp [encV, encInt, hn, htl]
        · intro h
          have hd := digitChar_isDigit hk
          rw [h] at hd
          exact absurd hd (by decide)
        · intro h
          have hd := digitChar_isDigit hk
          rw [h] at hd
          exact absurd hd (by decide)

theorem parseValHead_digit (g : Nat) (c : Char) (hc : c.isDigit = true) (l : List Char) :
    parseValHead (g + 1) (c :: l) =
    (parseNatPart (c :: l)).map (fun p => (JVal.int (p.1 : Int), p.2)) := by
  have hn : ¬c = 'n' := fun h => by subst h; exact absurd hc (by decide)
  have ht : ¬c = 't' := fun h => by subst h; exact absurd hc (by decide)
  have hf : ¬c = 'f' := fun h => by subst h; exact absurd hc (by decide)
  have hq : ¬c = '"' := fun h => by subst h; exact absurd hc (by decide)
  have hlb : ¬c = '[' := fun h => by subst h; exact absurd hc (by decide)
  have hob : ¬c = '\x7b' := fun h => by subst h; exact absurd hc (by decide)
  have hm : ¬c = '-' := fun h => by subst h; exact absurd hc (by decide)
  simp only [parseValHead]
  rw [if_neg hn, if_neg ht, if_neg hf, if_neg hq, if_neg hlb, if_neg hob, if_neg hm,
      if_pos hc]

theorem parse_encV_all : ∀ f : Nat,
    (∀ v rest, sizeV v ≤ f → ndh rest = true →
      parseVal f (encV v ++ rest) = some (v, rest)) ∧
    (∀ x xs rest, sizeL (x :: xs) ≤ f →
      parseElems f (encL (x :: xs) ++ ']' :: rest) = some (x :: xs, rest)) ∧
    (∀ k v ms rest, sizeM ((k, v) :: ms) ≤ f →
      parseMembers f (encM ((k, v) :: ms) ++ '\x7d' :: rest) = some ((k, v) :: ms, rest)) := by
  intro f
  induction f using Nat.strong_induction_on with
  | _ f ih =>
    refine ⟨?_, ?_, ?_⟩
    · intro v rest hsv hrest
      have h2 := two_le_sizeV v
      obtain ⟨g, rfl⟩ : ∃ g, f = g + 2 := ⟨f - 2, by omega⟩
      cases v with
      | null =>
          simp only [encV, List.cons_append, List.nil_append]
          simp only [parseVal]
          rw [skipWs_cons (by decide)]
          simp only [parseValHead]
          rfl
      | bool b =>
          cases b with
          | true =>
              simp only [encV, List.cons_append, List.nil_append]
              simp only [parseVal]
              rw [skipWs_cons (by decide)]
              simp only [parseValHead]
              rfl
          | false =>
              simp only [encV, List.cons_append, List.nil_append]
              simp only [parseVal]
              rw [skipWs_cons (by decide)]
              simp only [parseValHead]
              rfl
      | int n =>
          simp only [encV, encInt]
          by_cases hn : n < 0
          · rw [if_pos hn]
            simp only [List.cons_append]
            simp only [parseVal]
            rw [skipWs_cons (by decide)]
            simp only [parseValHead]
            simp +decide only [if_true, if_false]
            rw [parseNatPart_natChars _ _ hrest]
            simp only [Option.map_some']
            rw [show (-(n.natAbs : Int)) = n from by omega]
          · rw [if_neg hn]
            obtain ⟨k, tl, hk, htl⟩ := natChars_head n.natAbs
            rw [htl, List.cons_append]
            simp only [parseVal]
            have hcd : (digitChar k).isDigit = true := digitChar_isDigit hk
            rw [skipWs_cons (not_ws_of_isDigit hcd)]
            rw [parseValHead_digit _ _ hcd]
            rw [show digitChar k :: (tl ++ rest) = natChars n.natAbs ++ rest from by
              rw [htl, List.cons_append]]
            rw [parseNatPart_natChars _ _ hrest]
            simp only [Option.map_some']
            rw [show ((n.natAbs : Nat) : Int) = n from by omega]
      | str s =>
          obtain ⟨sd⟩ := s
          simp only [encV, encString, List.cons_append, List.append_assoc,
            List.singleton_append, List.nil_append]
          simp only [parseVal]
          rw [skipWs_cons (by decide)]
          simp only [parseValHead]
          simp +decide only [if_true, if_false, List.nil_append]
          rw [parseStringBody_flatten]
          rfl
      | arr xs =>
          simp only [sizeV] at hsv
          simp only [encV, List.cons_append, List.append_assoc, List.singleton_append]
          simp only [parseVal]
          rw [skipWs_cons (by decide)]
          obtain ⟨g1, rfl⟩ : ∃ g1, g = g1 + 1 := ⟨g - 1, by omega⟩
          simp only [parseValHead]
          simp +decide only [if_true, if_false, List.nil_append]
          cases xs with
          | nil =>
              simp only [encL, List.nil_append]
              rw [skipWs_cons (by decide)]
              simp only [parseArrBody]
              simp +decide only [if_true, if_false]
              try rfl
          | cons x xs' =>
              obtain ⟨d, tl, hdenc, hdws, hdrb, hdob⟩ := encV_head x
              rw [encL_cons, List.append_assoc, hdenc, List.cons_append]
              rw [skipWs_cons hdws]
              simp only [parseArrBody]
              rw [if_neg hdrb]
              rw [show d :: (tl ++ (encLSep xs' ++ ']' :: rest)) =
                    encL (x :: xs') ++ ']' :: rest from by
                rw [encL_cons, List.append_assoc, hdenc, List.cons_append]]
              rw [(ih g1 (by omega)).2.1 x xs' rest (by omega)]
              rfl
      | obj kvs =>
          simp only [sizeV] at hsv
          simp only [encV, List.cons_append, List.append_assoc, List.singleton_append]
          simp only [parseVal]
          rw [skipWs_cons (by decide)]
          obtain ⟨g1, rfl⟩ : ∃ g1, g = g1 + 1 := ⟨g - 1, by omega⟩
          simp only [parseValHead]
          simp +decide only [if_true, if_false, List.nil_append]
          cases kvs with
          | nil =>
              simp only [encM, List.nil_append]
              rw [skipWs_cons (by decide)]
              simp only [parseObjBody]
              simp +decide only [if_true, if_false]
              try rfl
          | cons m ms' =>
              rcases m with ⟨k, v⟩
              rw [encM_cons]
              simp only [encString, List.cons_append, List.append_assoc,
                List.singleton_append, List.nil_append]
              rw [skipWs_cons (by decide)]
              simp only [parseObjBody]
              rw [show ('"' :: ((k.data.map escapeChar).flatten ++
                    '"' :: ':' :: ' ' :: (encV v ++ (encMSep ms' ++ '\x7d' :: rest)))) =
                    encM ((k, v) :: ms') ++ '\x7d' :: rest from by
                rw [encM_cons]
                simp only [encString, List.cons_append, List.append_assoc,
                  List.singleton_append, List.nil_append]]
              rw [(ih g1 (by omega)).2.2 k v ms' rest (by omega)]
              rfl
    · intro x xs rest hsz
      simp only [sizeL] at hsz
      have h2x := two_le_sizeV x
      obtain ⟨e2, rfl⟩ : ∃ e2, f = e2 + 2 := ⟨f - 2, by omega⟩
      simp only [parseElems]
      rw [encL_cons, List.append_assoc]
      rw [(ih (e2 + 1) (by omega)).1 x (encLSep xs ++ ']' :: rest) (by omega)
            (by cases xs <;> rfl)]
      show parseElemsTail (e2 + 1) x (skipWs (encLSep xs ++ ']' :: rest)) =
        some (x :: xs, rest)
      cases xs with
      | nil =>
          simp only [encLSep, List.nil_append]
          rw [skipWs_cons (by decide)]
          simp only [parseElemsTail]
          simp +decide only [if_true, if_false]
          try rfl
      | cons y ys =>
          simp only [encLSep, List.cons_append]
          rw [skipWs_cons (by decide)]
          simp only [parseElemsTail]
          simp +decide only [if_true, if_false]
          rw [parseElems_cons_space]
          rw [(ih e2 (by omega)).2.1 y ys rest (by omega)]
          rfl
    · intro k v ms rest hsz
      obtain ⟨kd⟩ := k
      simp only [sizeM] at hsz
      have h2v := two_le_sizeV v
      obtain ⟨m3, rfl⟩ : ∃ m3, f = m3 + 3 := ⟨f - 3, by omega⟩
      simp only [parseMembers]
      rw [encM_cons]
      simp only [encString, List.cons_append, List.append_assoc, List.singleton_append,
        List.nil_append]
      rw [skipWs_cons (by decide)]
      simp only [parseMembersHead]
      simp +decide only [if_true, if_false]
      rw [parseStringBody_flatten]
      show parseMemberSep (m3 + 1) (String.mk kd)
        (skipWs (':' :: ' ' :: (encV v ++ (encMSep ms ++ '\x7d' :: rest)))) =
        some ((String.mk kd, v) :: ms, rest)
      rw [skipWs_cons (by decide)]
      simp only [parseMemberSep]
      simp +decide only [if_true, if_false]
      rw [parseVal_cons_space]
      rw [(ih m3 (by omega)).1 v (encMSep ms ++ '\x7d' :: rest) (by omega)
            (by cases ms <;> rfl)]
      show parseMembersTail m3 (String.mk kd) v (skipWs (encMSep ms ++ '\x7d' :: rest)) =
        some ((String.mk kd, v) :: ms, rest)
      obtain ⟨m4, rfl⟩ : ∃ m4, m3 = m4 + 1 := ⟨m3 - 1, by omega⟩
      cases ms with
      | nil =>
          simp only [encMSep, List.nil_append]
          rw [skipWs_cons (by decide)]
          simp only [parseMembersTail]
          simp +decide only [if_true, if_false]
          try rfl
      | cons m ms' =>
          rcases m with ⟨k2, v2⟩
          simp only [encMSep, List.cons_append]
          rw [skipWs_cons (by decide)]
          simp only [parseMembersTail]
          simp +decide only [if_true, if_false]
          rw [parseMembers_cons_space]
          rw [(ih m4 (by omega)).2.2 k2 v2 ms' rest (by omega)]
          rfl

mutual

theorem sizeV_le (v : JVal) : sizeV v ≤ 4 * (encV v).length := by
  cases v with
  | null => simp [sizeV, encV]
  | bool b => cases b <;> simp [sizeV, encV]
  | int n =>
      have h1 : 1 ≤ (natChars n.natAbs).length := by
        obtain ⟨k, tl, _, htl⟩ := natChars_head n.natAbs
        simp [htl]
      by_cases hn : n < 0 <;> simp [sizeV, encV, encInt, hn] <;> omega
  | str s =>
      simp only [sizeV, encV, encString]
      simp [List.length_append]
      omega
  | arr xs =>
      have := sizeL_le xs
      simp only [sizeV, encV]
      simp [List.length_append]
      omega
  | obj kvs =>
      have := sizeM_le kvs
      simp only [sizeV, encV]
      simp [List.length_append]
      omega

theorem sizeL_le (xs : List JVal) : sizeL xs ≤ 4 * (encL xs).length + 2 := by
  match xs with
  | [] => simp [sizeL, encL]
  | [x] =>
      have := sizeV_le x
      simp [sizeL, encL]
      omega
  | x :: y :: ys =>
      have h1 := sizeV_le x
      have h2 := sizeL_le (y :: ys)
      simp only [sizeL] at h2 ⊢
      simp only [encL]
      simp [List.length_append]
      omega

theorem sizeM_le (ms : List (String × JVal)) : sizeM ms ≤ 4 * (encM ms).length + 2 := by
  match ms with
  | [] => simp [sizeM, encM]
  | [(k, v)] =>
      have := sizeV_le v
      simp only [sizeM, encM]
      simp [List.length_append]
      omega
  | (k, v) :: m :: ms' =>
      have h1 := sizeV_le v
      have h2 := sizeM_le (m :: ms')
      rcases m with ⟨k2, v2⟩
      simp only [sizeM] at h2 ⊢
      simp only [encM]
      simp [List.length_append]
      omega

end

/-- Round trip of the JSON embedding: decoding an encoded value gives the
value back.  This is the heart of the `details` round-trip property of the
audit log. -/
theorem loads_dumps (v : JVal) : loads (dumps v) = some v := by
  have hb : sizeV v ≤ 4 * (encV v).length + 4 := by
    have := sizeV_le v
    omega
  have hmain := (parse_encV_all (4 * (encV v).length + 4)).1 v [] hb rfl
  rw [List.append_nil] at hmain
  show (match parseVal (4 * (String.mk (encV v)).data.length + 4)
      (String.mk (encV v)).data with
    | some (w, rest) => if skipWs rest = [] then some w else none
    | none => none) = some v
  rw [show (String.mk (encV v)).data = encV v from rfl]
  rw [hmain]
  rfl

/-! ## Sample data for concrete witnesses -/

/-- The freshly initialized database (all tables empty; SQLite row ids start
at 1). -/
def emptyDB : DB :=
  { usuarios := [], solicitantes := [], protocolos := [], logs_usuario := [],
    next_usuario_id := 1, next_solicitante_id := 1, next_protocolo_id := 1,
    next_log_id := 1 }

/-- A sample administrator row. -/
def adminSample : Usuario :=
  { id := 1, usuario := "admin", senha := "h1", nome := "Administrador",
    email := none, nivel_acesso := "admin", ativo := true, ultimo_login := none }

/-- A sample regular-user row. -/
def userSample : Usuario :=
  { id := 2, usuario := "maria", senha := "h2", nome := "Maria",
    email := none, nivel_acesso := "usuario", ativo := true, ultimo_login := none }

/-- A sample protocol row created by user 2. -/
def protocoloSample : Protocolo :=
  { id := 1, numero_protocolo := "PROT-2024-0001", titulo := "Memo",
    descricao := none, tipo_documento := "Memorando", status := "Pendente",
    data_protocolo := "2024-01-10", data_prazo := none, solicitante_id := some 1,
    observacoes := none, criado_por := some 2 }

/-- A sample requester row. -/
def solicitanteSample : Solicitante :=
  { id := 1, nome := "Ana", email := none, telefone := none,
    departamento := some "HR" }

/-- A database with one admin, one user, one requester and one protocol. -/
def sampleDB : DB :=
  { usuarios := [adminSample, userSample], solicitantes := [solicitanteSample],
    protocolos := [protocoloSample], logs_usuario := [],
    next_usuario_id := 3, next_solicitante_id := 2, next_protocolo_id := 2,
    next_log_id := 1 }

/-! ## C1: protocol number generation -/

/-- C1, counterexample.  `gerar_numero_protocolo` is a pure read of the
current row count and inserts nothing, so calling it twice sequentially on
an empty protocol table with no intervening insert applies it twice to the
same state: both calls return `PROT-2024-0001`, and the second call does
not return `PROT-2024-0002` as the claim states. -/
theorem gerar_numero_second_call_counterexample :
    gerar_numero_protocolo emptyDB 2024 = "PROT-2024-0001" ∧
    gerar_numero_protocolo emptyDB 2024 ≠ "PROT-2024-0002" := by
  constructor
  · rfl
  · decide

/-- C1, amended: each call returns `PROT-{year}-{count+1:04d}` over the
current protocol count.  On an empty table the first call yields
`PROT-{year}-0001`; a second call with no intervening insert yields the
same `PROT-{year}-0001` again; after `ProtocolosCRUD.criar` inserts one
row, the next call yields `PROT-{year}-0002`. -/
theorem gerar_numero_protocolo_spec (db : DB) (now ano : Nat)
    (h : db.protocolos = [])
    (titulo : String) (descricao : Option String) (tipo_documento : String)
    (data_protocolo : String) (data_prazo : Option String)
    (solicitante_id : Option Nat) (observacoes : Option String)
    (criado_por : Option Nat) :
    gerar_numero_protocolo db ano =
      "PROT-" ++ String.mk (natChars ano) ++ "-" ++ "0001" ∧
    gerar_numero_protocolo
        (protocolos_criar db now ano titulo descricao tipo_documento
          data_protocolo data_prazo solicitante_id observacoes criado_por).1 ano =
      "PROT-" ++ String.mk (natChars ano) ++ "-" ++ "0002" ∧
    (∀ db' : DB, gerar_numero_protocolo db' ano =
      "PROT-" ++ String.mk (natChars ano) ++ "-" ++
        pad4 (db'.protocolos.length + 1)) := by
  refine ⟨?_, ?_, fun db' => rfl⟩
  · simp only [gerar_numero_protocolo, h, List.length_nil]
    rfl
  · simp only [protocolos_criar, registrar_log, gerar_numero_protocolo, h]
    rfl

/-- C1 witness: the amended statement at the empty database and year
2024. -/
theorem gerar_numero_protocolo_spec_witness :
    gerar_numero_protocolo emptyDB 2024 =
      "PROT-" ++ String.mk (natChars 2024) ++ "-" ++ "0001" ∧
    gerar_numero_protocolo
        (protocolos_criar emptyDB 1000 2024 "Memo" none "Memorando"
          "2024-01-10" none (some 1) none (some 2)).1 2024 =
      "PROT-" ++ String.mk (natChars 2024) ++ "-" ++ "0002" := by
  have h := gerar_numero_protocolo_spec emptyDB 1000 2024 rfl "Memo" none
    "Memorando" "2024-01-10" none (some 1) none (some 2)
  exact ⟨h.1, h.2.1⟩

/-! ## C4: protocol edit permission -/

/-- C4: the protocol-edit permission check of `gerenciar_protocolos` returns
true exactly when the viewing user's role is `admin` or the user's id equals
the protocol's `criado_por`; in particular the creator and every admin may
edit, and no other non-admin user may. -/
theorem pode_editar_iff (V : Usuario) (P : Protocolo) :
    pode_editar V P = true ↔
      (V.nivel_acesso = "admin" ∨ P.criado_por = some V.id) := by
  simp [pode_editar]

/-! ## C5: access-policy truth table -/

/-- C5: `verificar_permissao` over the two roles satisfies the spec's truth
table: an admin-required check passes only for role `admin`; a user-required
check passes for both roles. -/
theorem verificar_permissao_truth_table (u : Usuario) :
    (u.nivel_acesso = "admin" →
      verificar_permissao (some u) "admin" = true ∧
      verificar_permissao (some u) "usuario" = true) ∧
    (u.nivel_acesso = "usuario" →
      verificar_permissao (some u) "admin" = false ∧
      verificar_permissao (some u) "usuario" = true) := by
  constructor <;> intro h <;> simp [verificar_permissao, h]

/-- C5 witness: the truth table evaluated at a concrete admin row and a
concrete regular-user row. -/
theorem verificar_permissao_truth_table_witness :
    (verificar_permissao (some adminSample) "admin" = true ∧
      verificar_permissao (some adminSample) "usuario" = true) ∧
    (verificar_permissao (some userSample) "admin" = false ∧
      verificar_permissao (some userSample) "usuario" = true) :=
  ⟨(verificar_permissao_truth_table adminSample).1 rfl,
   (verificar_permissao_truth_table userSample).2 rfl⟩

/-! ## C7: protocol number immutable under update -/

/-- C7: `ProtocolosCRUD.atualizar` rewrites every editable column but not
`numero_protocolo`: after a successful update with any arguments, every row
keeps its id and protocol number — in particular the updated row's stored
number equals its value before the update. -/
theorem protocolos_atualizar_preserves_numero (db : DB) (now id : Nat)
    (titulo : String) (descricao : Option String)
    (tipo_documento status data_protocolo : String)
    (data_prazo : Option String) (solicitante_id : Option Nat)
    (observacoes : Option String) (atualizado_por_id : Option Nat) (db' : DB)
    (h : protocolos_atualizar db now id titulo descricao tipo_documento status
      data_protocolo data_prazo solicitante_id observacoes atualizado_por_id =
      some db') :
    db'.protocolos.map (fun p => (p.id, p.numero_protocolo)) =
      db.protocolos.map (fun p => (p.id, p.numero_protocolo)) := by
  unfold protocolos_atualizar at h
  cases hf : db.protocolos.find? (fun p => p.id == id) with
  | none => rw [hf] at h; simp at h
  | some dados =>
      rw [hf] at h
      simp only [Option.some.injEq] at h
      subst h
      simp only [registrar_log, List.map_map]
      apply List.map_congr_left
      intro p _
      by_cases hp : p.id = id <;> simp [hp]

/-- The database produced by the sample update of C7's witness. -/
def sampleDB_updated : DB :=
  (protocolos_atualizar sampleDB 2000 1 "Memo revisado" none "Memorando"
    "Concluído" "2024-01-10" none (some 1) none (some 2)).getD emptyDB

/-- C7 witness: a concrete successful update leaves id and protocol number
of every row unchanged. -/
theorem protocolos_atualizar_preserves_numero_witness :
    protocolos_atualizar sampleDB 2000 1 "Memo revisado" none "Memorando"
      "Concluído" "2024-01-10" none (some 1) none (some 2) =
      some sampleDB_updated ∧
    sampleDB_updated.protocolos.map (fun p => (p.id, p.numero_protocolo)) =
      sampleDB.protocolos.map (fun p => (p.id, p.numero_protocolo)) :=
  ⟨rfl, protocolos_atualizar_preserves_numero sampleDB 2000 1 "Memo revisado"
    none "Memorando" "Concluído" "2024-01-10" none (some 1) none (some 2)
    sampleDB_updated rfl⟩

/-! ## C3: failed login -/

/-- C3: with unique logins (the `usuarios.usuario` UNIQUE constraint), a
login attempt with a wrong password for an existing login, and a login
attempt for a nonexistent login, both return `none` and both append exactly
one audit entry with action `LOGIN_FALHOU`, null actor, and status `erro`. -/
theorem login_failure_audit (hash : String → String) (db : DB) (now : Nat)
    (usuario senha : String)
    (hnodup : db.usuarios.Pairwise (fun a b => a.usuario ≠ b.usuario))
    (hcase : (∃ u ∈ db.usuarios, u.usuario = usuario ∧ u.senha ≠ hash senha) ∨
             (∀ u ∈ db.usuarios, u.usuario ≠ usuario)) :
    (login hash db now usuario senha).2 = none ∧
    (login hash db now usuario senha).1.logs_usuario = db.logs_usuario ++
      [{ id := db.next_log_id, usuario_id := none, acao := "LOGIN_FALHOU",
         tabela_afetada := "usuarios", registro_id := none,
         detalhes := some ("Tentativa de login falhada para usuário: " ++ usuario),
         ip_address := none, user_agent := none, timestamp := now,
         status := "erro" }] := by
  have hfind : db.usuarios.find?
      (fun u => u.usuario == usuario && u.senha == hash senha && u.ativo) = none := by
    rw [List.find?_eq_none]
    intro v hv hmatch
    simp only [Bool.and_eq_true, beq_iff_eq] at hmatch
    obtain ⟨⟨hvu, hvs⟩, _⟩ := hmatch
    rcases hcase with ⟨u0, hu0, hu0u, hu0s⟩ | hnone
    · by_cases hvu0 : v = u0
      · subst hvu0
        exact hu0s hvs
      · have hsym : Symmetric (fun a b : Usuario => a.usuario ≠ b.usuario) :=
          fun _ _ h => Ne.symm h
        have hne := List.Pairwise.forall hsym hnodup hv hu0 hvu0
        exact hne (hvu.trans hu0u.symm)
    · exact hnone v hv hvu
  unfold login
  rw [hfind]
  exact ⟨rfl, rfl⟩

/-- C3 witness: a one-user database; a wrong password for the existing
login `admin` (the identity is used as the stand-in hash, and the stored
digest differs from the supplied password). -/
theorem login_failure_audit_witness :
    (login (fun s => s) sampleDB 500 "admin" "wrong").2 = none ∧
    (login (fun s => s) sampleDB 500 "admin" "wrong").1.logs_usuario =
      sampleDB.logs_usuario ++
      [{ id := sampleDB.next_log_id, usuario_id := none, acao := "LOGIN_FALHOU",
         tabela_afetada := "usuarios", registro_id := none,
         detalhes := some ("Tentativa de login falhada para usuário: " ++ "admin"),
         ip_address := none, user_agent := none, timestamp := 500,
         status := "erro" }] :=
  login_failure_audit (fun s => s) sampleDB 500 "admin" "wrong"
    (by decide)
    (Or.inl ⟨adminSample, by decide, by decide, by decide⟩)

/-! ## C10: failed login leaves the tables unchanged -/

/-- C10: whenever `login` returns `none` (wrong password, unknown login or
inactive user), the `usuarios` table — and every other entity table — is
completely unchanged: no `ultimo_login` update, no row modification; the
only state change is the single appended audit-log entry. -/
theorem login_failure_frame (hash : String → String) (db : DB) (now : Nat)
    (usuario senha : String)
    (h : (login hash db now usuario senha).2 = none) :
    (login hash db now usuario senha).1.usuarios = db.usuarios ∧
    (login hash db now usuario senha).1.solicitantes = db.solicitantes ∧
    (login hash db now usuario senha).1.protocolos = db.protocolos ∧
    ∃ e, (login hash db now usuario senha).1.logs_usuario =
      db.logs_usuario ++ [e] := by
  unfold login at h ⊢
  cases hf : db.usuarios.find?
      (fun u => u.usuario == usuario && u.senha == hash senha && u.ativo) with
  | some u => rw [hf] at h; simp at h
  | none => exact ⟨rfl, rfl, rfl, _, rfl⟩

/-- C10 witness: the failed login of the C3 witness leaves all three entity
tables of the sample database unchanged. -/
theorem login_failure_frame_witness :
    (login (fun s => s) sampleDB 500 "admin" "wrong").1.usuarios =
      sampleDB.usuarios ∧
    (login (fun s => s) sampleDB 500 "admin" "wrong").1.solicitantes =
      sampleDB.solicitantes ∧
    (login (fun s => s) sampleDB 500 "admin" "wrong").1.protocolos =
      sampleDB.protocolos ∧
    ∃ e, (login (fun s => s) sampleDB 500 "admin" "wrong").1.logs_usuario =
      sampleDB.logs_usuario ++ [e] :=
  login_failure_frame (fun s => s) sampleDB 500 "admin" "wrong" rfl

/-! ## C2: one audit entry per entity mutation -/

/-- C2: every successful create, update or delete on the three entity
registries appends exactly one audit-log entry whose `tabela_afetada` is the
entity's table and whose `registro_id` is the id of the mutated row — the
freshly assigned id for creates (`cursor.lastrowid`, modelled by the
AUTOINCREMENT counter), the targeted id for updates and deletes. -/
theorem entity_mutations_audit (hash : String → String) (db : DB) (now ano : Nat)
    (usuarioN senhaN nomeN : String) (emailN : Option String) (nivelN : String)
    (ator : Option Nat)
    (idU : Nat) (uRow : Usuario) (nomeU : String) (emailU : Option String)
    (nivelU : String) (ativoU : Bool)
    (idS : Nat) (sRow : Solicitante) (nomeS : String)
    (emailS telS depS : Option String)
    (idP : Nat) (pRow : Protocolo) (tituloP : String) (descP : Option String)
    (tipoP statusP dataP : String) (prazoP : Option String) (solP : Option Nat)
    (obsP : Option String)
    (hdup : db.usuarios.any (fun u => u.usuario == usuarioN) = false)
    (hu : db.usuarios.find? (fun u => u.id == idU) = some uRow)
    (hs : db.solicitantes.find? (fun s => s.id == idS) = some sRow)
    (hp : db.protocolos.find? (fun p => p.id == idP) = some pRow) :
    (∃ e, (criar_usuario hash db now usuarioN senhaN nomeN emailN nivelN
        ator).1.logs_usuario = db.logs_usuario ++ [e] ∧
      e.tabela_afetada = "usuarios" ∧ e.registro_id = some db.next_usuario_id) ∧
    (∃ db2 e, atualizar_usuario db now idU nomeU emailU nivelU ativoU ator =
        some db2 ∧ db2.logs_usuario = db.logs_usuario ++ [e] ∧
      e.tabela_afetada = "usuarios" ∧ e.registro_id = some idU) ∧
    (∃ db2 e, deletar_usuario db now idU ator = some db2 ∧
      db2.logs_usuario = db.logs_usuario ++ [e] ∧
      e.tabela_afetada = "usuarios" ∧ e.registro_id = some idU) ∧
    (∃ e, (solicitantes_criar db now nomeS emailS telS depS ator).logs_usuario =
        db.logs_usuario ++ [e] ∧
      e.tabela_afetada = "solicitantes" ∧
      e.registro_id = some db.next_solicitante_id) ∧
    (∃ db2 e, solicitantes_atualizar db now idS nomeS emailS telS depS ator =
        some db2 ∧ db2.logs_usuario = db.logs_usuario ++ [e] ∧
      e.tabela_afetada = "solicitantes" ∧ e.registro_id = some idS) ∧
    (∃ db2 e, solicitantes_deletar db now idS ator = some db2 ∧
      db2.logs_usuario = db.logs_usuario ++ [e] ∧
      e.tabela_afetada = "solicitantes" ∧ e.registro_id = some idS) ∧
    (∃ e, (protocolos_criar db now ano tituloP descP tipoP dataP prazoP solP
        obsP ator).1.logs_usuario = db.logs_usuario ++ [e] ∧
      e.tabela_afetada = "protocolos" ∧
      e.registro_id = some db.next_protocolo_id) ∧
    (∃ db2 e, protocolos_atualizar db now idP tituloP descP tipoP statusP dataP
        prazoP solP obsP ator = some db2 ∧
      db2.logs_usuario = db.logs_usuario ++ [e] ∧
      e.tabela_afetada = "protocolos" ∧ e.registro_id = some idP) ∧
    (∃ db2 e, protocolos_deletar db now idP ator = some db2 ∧
      db2.logs_usuario = db.logs_usuario ++ [e] ∧
      e.tabela_afetada = "protocolos" ∧ e.registro_id = some idP) := by
  refine ⟨?_, ?_, ?_, ?_, ?_, ?_, ?_, ?_, ?_⟩
  · simp only [criar_usuario, hdup, Bool.false_eq_true, if_false]
    exact ⟨_, rfl, rfl, rfl⟩
  · unfold atualizar_usuario
    rw [hu]
    exact ⟨_, _, rfl, rfl, rfl, rfl⟩
  · unfold deletar_usuario
    rw [hu]
    exact ⟨_, _, rfl, rfl, rfl, rfl⟩
  · exact ⟨_, rfl, rfl, rfl⟩
  · unfold solicitantes_atualizar
    rw [hs]
    exact ⟨_, _, rfl, rfl, rfl, rfl⟩
  · unfold solicitantes_deletar
    rw [hs]
    exact ⟨_, _, rfl, rfl, rfl, rfl⟩
  · exact ⟨_, rfl, rfl, rfl⟩
  · unfold protocolos_atualizar
    rw [hp]
    exact ⟨_, _, rfl, rfl, rfl, rfl⟩
  · unfold protocolos_deletar
    rw [hp]
    exact ⟨_, _, rfl, rfl, rfl, rfl⟩

/-- C2 witness: the update-user conjunct at the sample database (row 2
exists, the new login is free), with every hypothesis discharged by
computation. -/
theorem entity_mutations_audit_witness :
    ∃ db2 e, atualizar_usuario sampleDB 600 2 "Maria S." none "usuario" true
        (some 1) = some db2 ∧
      db2.logs_usuario = sampleDB.logs_usuario ++ [e] ∧
      e.tabela_afetada = "usuarios" ∧ e.registro_id = some 2 :=
  (entity_mutations_audit (fun s => s) sampleDB 600 2024 "novo" "pw" "Novo"
    none "usuario" (some 1) 2 userSample "Maria S." none "usuario" true
    1 solicitanteSample "Ana" none none (some "HR") 1 protocoloSample "Memo"
    none "Memorando" "Pendente" "2024-01-10" none (some 1) none
    rfl rfl rfl rfl).2.1

/-! ## C6: structured details round-trip -/

/-- C6: a structured mapping passed as `detalhes` to `registrar_log` is
serialized with `json.dumps`; the stored entry is retrievable through
`buscar_logs` (no filters, sufficient limit) and its `detalhes` text decodes
with `json.loads` back to an equal mapping. -/
theorem registrar_log_details_roundtrip (db : DB) (now : Nat)
    (uid : Option Nat) (acao tab : String) (rid : Option Nat)
    (kvs : List (String × JVal)) (st : String) (ip ua : Option String)
    (limite : Nat) (hlim : db.logs_usuario.length + 1 ≤ limite) :
    ∃ w ∈ buscar_logs (registrar_log db now uid acao tab rid (.dict kvs) st ip ua)
        none none none none none limite,
      w.row.detalhes = some (dumps (.obj kvs)) ∧
      loads (dumps (.obj kvs)) = some (.obj kvs) := by
  have hlogs : (registrar_log db now uid acao tab rid (.dict kvs) st ip ua).logs_usuario
      = db.logs_usuario ++
        [⟨db.next_log_id, uid, acao, tab, rid, some (dumps (.obj kvs)), ip, ua,
          now, st⟩] := rfl
  refine ⟨⟨⟨db.next_log_id, uid, acao, tab, rid, some (dumps (.obj kvs)), ip, ua,
      now, st⟩,
    joinNome (registrar_log db now uid acao tab rid (.dict kvs) st ip ua) uid⟩,
    ?_, rfl, loads_dumps _⟩
  unfold buscar_logs
  rw [show (registrar_log db now uid acao tab rid (.dict kvs) st ip ua).logs_usuario.filter
        (buscar_logs_cond none none none none none) =
      (registrar_log db now uid acao tab rid (.dict kvs) st ip ua).logs_usuario from
    List.filter_eq_self.mpr (fun a _ => rfl)]
  rw [List.take_of_length_le
    (by rw [List.length_insertionSort, hlogs, List.length_append]; simpa using hlim)]
  exact List.mem_map_of_mem _
    ((List.perm_insertionSort _ _).mem_iff.mpr (by rw [hlogs]; simp))

/-- C6 witness: a concrete nested mapping written to the log of the empty
database and recovered through `buscar_logs`. -/
theorem registrar_log_details_roundtrip_witness :
    emptyDB.logs_usuario.length + 1 ≤ 5 ∧
    ∃ w ∈ buscar_logs (registrar_log emptyDB 700 (some 1) "CRIAR" "solicitantes"
        (some 1) (.dict [("nome", .str "Ana"), ("dep", .obj [("x", .int 3)])])
        "sucesso" none none) none none none none none 5,
      w.row.detalhes = some (dumps (.obj [("nome", .str "Ana"),
        ("dep", .obj [("x", .int 3)])])) ∧
      loads (dumps (.obj [("nome", .str "Ana"), ("dep", .obj [("x", .int 3)])])) =
        some (.obj [("nome", .str "Ana"), ("dep", .obj [("x", .int 3)])]) :=
  ⟨by decide, registrar_log_details_roundtrip emptyDB 700 (some 1) "CRIAR"
    "solicitantes" (some 1) [("nome", .str "Ana"), ("dep", .obj [("x", .int 3)])]
    "sucesso" none none 5 (by decide)⟩

/-- First components of a graph-like list of pairs. -/
theorem map_fst_pair {α β : Type} (L : List α) (f : α → β) :
    (L.map (fun d => (d, f d))).map Prod.fst = L := by
  induction L with
  | nil => rfl
  | cons a t ih => simp [ih]

/-- A log row whose actor is null (a failed login). -/
def logNullActor : LogRow :=
  ⟨1, none, "LOGIN_FALHOU", "usuarios", none, none, none, none, 1000, "erro"⟩

/-- A database holding exactly one log row, whose actor is null. -/
def nullActorDB : DB :=
  { usuarios := [], solicitantes := [], protocolos := [],
    logs_usuario := [logNullActor], next_usuario_id := 1,
    next_solicitante_id := 1, next_protocolo_id := 1, next_log_id := 2 }

/-! ## C8: counts by day -/

/-- C8: the counts-by-day result of `estatisticas_logs` counts only rows
with `timestamp >= datetime('now', '-30 days')`, one result row per calendar
date in strictly ascending date order (so no day is double-counted), every
reported day backed by at least one row in the window (days with zero
activity are absent), and — since server-assigned timestamps never exceed
query time — every reported day lies within the last 30 days. -/
theorem estatisticas_diario_spec (db : DB) (now : Nat)
    (hts : ∀ l ∈ db.logs_usuario, l.timestamp ≤ now) :
    List.Sorted (· < ·) ((estatisticas_diario db now).map Prod.fst) ∧
    ∀ p ∈ estatisticas_diario db now,
      0 < p.2 ∧
      p.2 = ((db.logs_usuario.filter (fun l => now - 30 * 86400 ≤ l.timestamp)).filter
        (fun l => l.timestamp / 86400 == p.1)).length ∧
      (∃ l ∈ db.logs_usuario, now - 30 * 86400 ≤ l.timestamp ∧ l.timestamp ≤ now ∧
        l.timestamp / 86400 = p.1) ∧
      (now - 30 * 86400) / 86400 ≤ p.1 ∧ p.1 ≤ now / 86400 := by
  constructor
  · unfold estatisticas_diario
    rw [map_fst_pair]
    exact List.Sorted.lt_of_le (List.sorted_insertionSort _ _)
      ((List.perm_insertionSort _ _).nodup_iff.mpr (List.nodup_dedup _))
  · intro p hp
    unfold estatisticas_diario at hp
    obtain ⟨d, hd, rfl⟩ := List.mem_map.mp hp
    have hd2 := (List.perm_insertionSort _ _).mem_iff.mp hd
    have hd3 := List.mem_dedup.mp hd2
    obtain ⟨l0, hl0mem, rfl⟩ := List.mem_map.mp hd3
    have hl0f := List.mem_filter.mp hl0mem
    have hwin : now - 30 * 86400 ≤ l0.timestamp := by simpa using hl0f.2
    refine ⟨?_, rfl, ⟨l0, hl0f.1, hwin, hts l0 hl0f.1, rfl⟩,
      Nat.div_le_div_right hwin, Nat.div_le_div_right (hts l0 hl0f.1)⟩
    have hmem2 : l0 ∈ (db.logs_usuario.filter
        (fun l => now - 30 * 86400 ≤ l.timestamp)).filter
        (fun l => l.timestamp / 86400 == l0.timestamp / 86400) :=
      List.mem_filter.mpr ⟨hl0mem, by simp⟩
    exact List.length_pos.mpr (List.ne_nil_of_mem hmem2)

/-- C8 witness: a one-row database (timestamp 1000) queried at time 2000. -/
theorem estatisticas_diario_spec_witness :
    (∀ l ∈ nullActorDB.logs_usuario, l.timestamp ≤ 2000) ∧
    List.Sorted (· < ·) ((estatisticas_diario nullActorDB 2000).map Prod.fst) :=
  ⟨by decide, (estatisticas_diario_spec nullActorDB 2000 (by decide)).1⟩

/-! ## C9: counts by actor -/

/-- C9, counterexample.  On a database whose only log row has a null actor,
the counts-by-actor result groups that row under the SQL-NULL name produced
by the LEFT JOIN (`none`), not under the label "unknown": no result row
carries the name "unknown". -/
theorem estatisticas_usuarios_unknown_counterexample :
    estatisticas_usuarios nullActorDB = [((none, none), 1)] ∧
    ∀ e ∈ estatisticas_usuarios nullActorDB, e.1.2 ≠ some "unknown" := by
  constructor
  · rfl
  · decide

/-- C9, amended: the counts-by-actor result groups the log rows by actor
(the pair of `usuario_id` and the LEFT-JOINed user name) in descending
order of count; every group's name is the joined name of its actor — null,
not "unknown", when the actor is null or deleted — every group counts at
least one row, its count is the number of log rows with that actor, and
every log row (in particular every null-actor row) belongs to some group. -/
theorem estatisticas_usuarios_spec (db : DB) :
    List.Sorted byCountDesc (estatisticas_usuarios db) ∧
    (∀ e ∈ estatisticas_usuarios db,
      e.1.2 = joinNome db e.1.1 ∧ 0 < e.2 ∧
      e.2 = (db.logs_usuario.filter
        (fun l => (l.usuario_id, joinNome db l.usuario_id) = e.1)).length) ∧
    (∀ l ∈ db.logs_usuario,
      (l.usuario_id, joinNome db l.usuario_id) ∈
        (estatisticas_usuarios db).map Prod.fst) := by
  refine ⟨List.sorted_insertionSort _ _, ?_, ?_⟩
  · intro e he
    have he2 := (List.perm_insertionSort _ _).mem_iff.mp he
    unfold groupCounts at he2
    obtain ⟨k, hk, rfl⟩ := List.mem_map.mp he2
    have hk2 := List.mem_dedup.mp hk
    obtain ⟨l0, _, rfl⟩ := List.mem_map.mp hk2
    refine ⟨rfl, ?_, ?_⟩
    · exact List.length_pos.mpr (List.ne_nil_of_mem
        (List.mem_filter.mpr ⟨hk2, decide_eq_true rfl⟩))
    · rw [List.filter_map, List.length_map]
      rfl
  · intro l hl
    have h1 : (l.usuario_id, joinNome db l.usuario_id) ∈
        (db.logs_usuario.map
          (fun l => (l.usuario_id, joinNome db l.usuario_id))).dedup :=
      List.mem_dedup.mpr (List.mem_map_of_mem _ hl)
    have h2 : (l.usuario_id, joinNome db l.usuario_id) ∈
        (groupCounts (db.logs_usuario.map
          (fun l => (l.usuario_id, joinNome db l.usuario_id)))).map Prod.fst := by
      unfold groupCounts
      rw [map_fst_pair]
      exact h1
    exact ((List.perm_insertionSort _ _).map Prod.fst).mem_iff.mpr h2

/-- C9 witness: the amended statement's sortedness at the one-row null-actor
database. -/
theorem estatisticas_usuarios_spec_witness :
    List.Sorted byCountDesc (estatisticas_usuarios nullActorDB) :=
  (estatisticas_usuarios_spec nullActorDB).1
